import Mathlib

/-!
QRScanner: the UPI payment-URI decode / encode path and the scanner lifecycle.

A shallow embedding of `src/QRScanner.jsx`.

* JavaScript strings are Lean `String`s (sequences of Unicode scalar values); every
  literal the component searches for or emits is ASCII, so positions agree with the
  UTF-16 view of the same text. Texts with unpaired surrogates are not represented.
* `String.prototype.replace` and `URLSearchParams` are platform operations the
  component calls; they are embedded from ECMA-262 and the WHATWG URL / Encoding
  standards (byte-level `application/x-www-form-urlencoded` parsing, percent-decoding,
  replacement-mode UTF-8 decoding).
* React state (`scannedData`, `isScanning`) is an explicit record, event handlers are
  functions on it, and the `useEffect` lifecycle is a transition function over events.
-/

namespace QRScanner

/-! ## Platform strings -/

namespace JS

/-- First-occurrence replacement, `s.replace(pat, repl)` with a string pattern: the
leftmost occurrence of `pat` in `s` is replaced by `repl`; `s` is returned unchanged
when `pat` does not occur. -/
def replaceChars (pat repl : List Char) : List Char → List Char
  | [] => if pat = [] then repl else []
  | c :: cs =>
    if pat.isPrefixOf (c :: cs) then repl ++ (c :: cs).drop pat.length
    else c :: replaceChars pat repl cs

/-- The string method `replace` on strings, with a string pattern. -/
def replace (s pat repl : String) : String :=
  ⟨replaceChars pat.data repl.data s.data⟩

/-- Truthiness of a string value: only the empty string is falsy. -/
def truthy (s : String) : Bool := !s.data.isEmpty

/-- The expression `x || d` where `x` is `null` or a string and `d` a string. -/
def orElse (x : Option String) (d : String) : String :=
  match x with
  | some s => if truthy s then s else d
  | none => d

/-- Template-literal interpolation of a value that is `null` or a string. -/
def interpolate (x : Option String) : String :=
  match x with
  | some s => s
  | none => "null"

end JS

/-! ## UTF-8 (WHATWG Encoding) -/

namespace UTF8

/-- UTF-8 bytes of one scalar value. -/
def encodeChar (c : Char) : List Nat :=
  let n := c.toNat
  if n < 0x80 then [n]
  else if n < 0x800 then [0xC0 + n / 64, 0x80 + n % 64]
  else if n < 0x10000 then [0xE0 + n / 4096, 0x80 + n / 64 % 64, 0x80 + n % 64]
  else [0xF0 + n / 262144, 0x80 + n / 4096 % 64, 0x80 + n / 64 % 64, 0x80 + n % 64]

/-- UTF-8 encode. -/
def encode (cs : List Char) : List Nat := cs.flatMap encodeChar

/-- Decoder state: accumulated code point, continuation bytes still needed, and the
allowed range of the next continuation byte. -/
structure DecState where
  cp : Nat
  need : Nat
  lower : Nat
  upper : Nat
deriving DecidableEq, Repr

/-- Decoder state between code points. -/
def DecState.start : DecState := ⟨0, 0, 0x80, 0xBF⟩

/-- The replacement character emitted on a decoding error. -/
def replacementChar : Char := Char.ofNat 0xFFFD

/-- Handler for a byte read when no continuation byte is pending. -/
def lead (b : Nat) : DecState × List Char :=
  if b ≤ 0x7F then (DecState.start, [Char.ofNat b])
  else if 0xC2 ≤ b ∧ b ≤ 0xDF then (⟨b % 32, 1, 0x80, 0xBF⟩, [])
  else if 0xE0 ≤ b ∧ b ≤ 0xEF then
    (⟨b % 16, 2, if b = 0xE0 then 0xA0 else 0x80, if b = 0xED then 0x9F else 0xBF⟩, [])
  else if 0xF0 ≤ b ∧ b ≤ 0xF4 then
    (⟨b % 8, 3, if b = 0xF0 then 0x90 else 0x80, if b = 0xF4 then 0x8F else 0xBF⟩, [])
  else (DecState.start, [replacementChar])

/-- One step of the decoder: a byte out of range while a sequence is pending emits the
replacement character and is then handled again as a fresh byte. -/
def step (st : DecState) (b : Nat) : DecState × List Char :=
  if st.need = 0 then lead b
  else if b < st.lower ∨ st.upper < b then
    ((lead b).1, replacementChar :: (lead b).2)
  else if st.need = 1 then (DecState.start, [Char.ofNat (st.cp * 64 + b % 64)])
  else (⟨st.cp * 64 + b % 64, st.need - 1, 0x80, 0xBF⟩, [])

/-- Run the decoder; an unfinished sequence at end of input emits the replacement
character. -/
def run : DecState → List Nat → List Char
  | st, [] => if st.need = 0 then [] else [replacementChar]
  | st, b :: bs => (step st b).2 ++ run (step st b).1 bs

/-- UTF-8 decode without BOM, replacement error mode. -/
def decode (bs : List Nat) : List Char := run DecState.start bs

end UTF8

/-! ## `application/x-www-form-urlencoded` parsing (WHATWG URL) -/

namespace Form

/-- Value of an ASCII hex digit byte. -/
def hexVal (b : Nat) : Option Nat :=
  if 0x30 ≤ b ∧ b ≤ 0x39 then some (b - 0x30)
  else if 0x41 ≤ b ∧ b ≤ 0x46 then some (b - 0x37)
  else if 0x61 ≤ b ∧ b ≤ 0x66 then some (b - 0x57)
  else none

/-- The byte denoted by the two bytes that follow a `%`, when both are hex digits. -/
def hexPair : List Nat → Option Nat
  | h :: l :: _ =>
    match hexVal h, hexVal l with
    | some x, some y => some (16 * x + y)
    | _, _ => none
  | _ => none

/-- Percent-decoding with a count of input bytes still to be skipped: a `%` followed by
two hex digits yields the byte they denote and skips them, any other byte is kept. -/
def percentDecodeFrom : Nat → List Nat → List Nat
  | _, [] => []
  | skip + 1, _ :: rest => percentDecodeFrom skip rest
  | 0, b :: rest =>
    if b = 0x25 then
      match hexPair rest with
      | some v => v :: percentDecodeFrom 2 rest
      | none => b :: percentDecodeFrom 0 rest
    else b :: percentDecodeFrom 0 rest

/-- Percent-decode a byte sequence. -/
def percentDecode (bs : List Nat) : List Nat := percentDecodeFrom 0 bs

/-- Strict split of a byte sequence on a separator byte. -/
def splitOn (sep : Nat) : List Nat → List (List Nat)
  | [] => [[]]
  | b :: bs =>
    if b = sep then [] :: splitOn sep bs
    else
      match splitOn sep bs with
      | [] => [[b]]
      | s :: ss => (b :: s) :: ss

/-- Bytes before the first `=` (all of them when there is none). -/
def nameBytes (seg : List Nat) : List Nat := seg.takeWhile (fun b => b != 0x3D)

/-- Bytes after the first `=` (none when there is no `=`). -/
def valueBytes (seg : List Nat) : List Nat := (seg.dropWhile (fun b => b != 0x3D)).drop 1

/-- Replace `+` by a space. -/
def plusToSpace (bs : List Nat) : List Nat := bs.map (fun b => if b = 0x2B then 0x20 else b)

/-- Decoded text of a name or value: `+` to space, percent-decode, UTF-8 decode. -/
def decodeComponent (bs : List Nat) : String :=
  ⟨UTF8.decode (percentDecode (plusToSpace bs))⟩

/-- The name-value tuple of one non-empty `&`-separated sequence. -/
def tuple (seg : List Nat) : String × String :=
  (decodeComponent (nameBytes seg), decodeComponent (valueBytes seg))

/-- The form-urlencoded parser on bytes: split on `&`, skip empty sequences, decode
each remaining sequence to a name-value tuple. -/
def parseBytes (bs : List Nat) : List (String × String) :=
  ((splitOn 0x26 bs).filter (fun seg => !seg.isEmpty)).map tuple

end Form

/-- The list of name-value tuples held by a `URLSearchParams` object. -/
structure URLSearchParams where
  list : List (String × String)
deriving DecidableEq, Repr

/-- Drop one leading `?`, as the `URLSearchParams` constructor does for a string. -/
def dropQuestionMark : List Char → List Char
  | [] => []
  | c :: cs => if c = '?' then cs else c :: cs

/-- The constructor `new URLSearchParams(init)` for a string `init`. -/
def URLSearchParams.new (init : String) : URLSearchParams :=
  ⟨Form.parseBytes (UTF8.encode (dropQuestionMark init.data))⟩

/-- The method `get(name)`: value of the first tuple with that name, else `null`. -/
def URLSearchParams.get (p : URLSearchParams) (name : String) : Option String :=
  (p.list.find? (fun t => t.1 == name)).map (fun t => t.2)

/-- No tuple of the parameter list carries the name `name`. -/
def URLSearchParams.hasNoParam (p : URLSearchParams) (name : String) : Prop :=
  ∀ t ∈ p.list, t.1 ≠ name

instance (p : URLSearchParams) (name : String) : Decidable (p.hasNoParam name) :=
  inferInstanceAs (Decidable (∀ t ∈ p.list, t.1 ≠ name))

/-! ## Component state and handlers (`QRScanner.jsx`) -/

/-- The object stored by `setScannedData`; `payeeUPI` and `payeeName` come straight from
`params.get` and may be `null`. -/
structure ScannedData where
  payeeUPI : Option String
  payeeName : Option String
  amount : String
  currency : String
  note : String
deriving DecidableEq, Repr

/-- The two `useState` cells of the component. -/
structure State where
  scannedData : Option ScannedData
  isScanning : Bool
deriving DecidableEq, Repr

/-- State on mount: `useState(null)` and `useState(false)`. -/
def State.initial : State := ⟨none, false⟩

/-- The parameters read from a scanned text:
`new URLSearchParams(data.replace("upi://pay?", ""))`. -/
def scanParams (data : String) : URLSearchParams :=
  URLSearchParams.new (JS.replace data "upi://pay?" "")

/-- The parameter `name` of a URI, read the way `handleScan` reads one: strip the marker,
parse, take the first value of the name. -/
def readParam (uri name : String) : Option String := (scanParams uri).get name

/-- The object literal built from the parameters (the five `const` lines of
`handleScan`). -/
def scannedRecord (params : URLSearchParams) : ScannedData :=
  { payeeUPI := params.get "pa"
    payeeName := params.get "pn"
    amount := JS.orElse (params.get "am") ""
    currency := JS.orElse (params.get "cu") "INR"
    note := JS.orElse (params.get "tn") "Payment via Money Tracker App" }

/-- The handler `handleScan(data)`: guarded by `if (data)`, it stores the record and
clears the scanning flag. -/
def handleScan (st : State) (data : String) : State :=
  if JS.truthy data then
    { scannedData := some (scannedRecord (scanParams data)), isScanning := false }
  else st

/-- The handler `startScanning`. -/
def startScanning (st : State) : State := { st with isScanning := true }

/-- The handler `stopScanning`. -/
def stopScanning (st : State) : State := { st with isScanning := false }

/-- The template literal of `redirectToUPI` for a stored record. -/
def upiUrl (d : ScannedData) : String :=
  "upi://pay?pa=" ++ JS.interpolate d.payeeUPI
    ++ "&pn=Merchant&mc=0000&tid=123456&tr=123456&tn=" ++ d.note
    ++ "&am=" ++ d.amount ++ "&cu=INR"

/-- The handler `redirectToUPI`: the value assigned to `window.location.href`, if any
(nothing is assigned while `scannedData` is `null`). -/
def redirectToUPI (st : State) : Option String :=
  match st.scannedData with
  | some d => some (upiUrl d)
  | none => none

/-! ## Scanner lifecycle (`useEffect` on `isScanning`) -/

/-- One `BrowserMultiFormatReader` created by a run of the effect: whether its
`listVideoInputDevices()` promise is still outstanding and whether a continuous decode
session (camera stream) started by `decodeFromVideoDevice` is running. The reader is the
external decoding library; only the three capabilities the component uses are
represented (enumerate devices, start a decode stream, reset a stream). -/
structure Reader where
  enumerating : Bool
  decoding : Bool
deriving DecidableEq, Repr

/-- The method `reset()` of a reader: stops the running session. It does not cancel the
outstanding enumeration promise. -/
def Reader.reset (r : Reader) : Reader := { r with decoding := false }

/-- The mounted component: its React state, the readers created so far in creation
order (the last one belongs to the most recent run of the effect), the `console.error`
lines and the last value assigned to `window.location.href`. -/
structure Component where
  state : State
  readers : List Reader
  console : List String
  location : Option String
deriving DecidableEq, Repr

/-- The component right after mounting. -/
def Component.initial : Component := ⟨State.initial, [], [], none⟩

/-- Apply a function to the last element of a list. -/
def modifyLast {α : Type} (f : α → α) : List α → List α
  | [] => []
  | [a] => [f a]
  | a :: b :: l => a :: modifyLast f (b :: l)

/-- Apply a function to the element at an index. -/
def modifyAt {α : Type} (f : α → α) : Nat → List α → List α
  | _, [] => []
  | 0, a :: l => f a :: l
  | i + 1, a :: l => a :: modifyAt f i l

/-- Re-render after a state update, `old` being the state before it. The effect depends
on `[isScanning]`: when the flag changed, the cleanup of the previous run (present only
if that run saw the flag true) resets that run's reader, and the new run creates a reader
and starts enumerating iff the flag is now true. -/
def commit (old : State) (c : Component) : Component :=
  if old.isScanning = c.state.isScanning then c
  else
    let cleaned := if old.isScanning then modifyLast Reader.reset c.readers else c.readers
    let started := if c.state.isScanning then cleaned ++ [⟨true, false⟩] else cleaned
    { c with readers := started }

/-- The callback handed to `decodeFromVideoDevice`: `result` is the text of the decode
result if there is one, `err` the error if there is one. -/
def decodeCallback (c : Component) (result : Option String) (err : Option String) :
    Component :=
  let st := match result with
    | some text => handleScan c.state text
    | none => c.state
  let out := match err with
    | some e => c.console ++ ["Error scanning QR code: " ++ e]
    | none => c.console
  { c with state := st, console := out }

/-- The `.then` continuation of the enumeration promise of a reader, run with the number
of devices found: with at least one device it calls `decodeFromVideoDevice`, which
starts a session on that reader. -/
def onEnumerated (devices : Nat) (r : Reader) : Reader :=
  if r.enumerating then
    if devices > 0 then { enumerating := false, decoding := true }
    else { r with enumerating := false }
  else r

/-- The `.catch` continuation of the enumeration promise of a reader. -/
def onEnumerationError (r : Reader) : Reader := { r with enumerating := false }

/-- Events of the component. -/
inductive Event where
  | clickStart
  | clickStop
  | clickPay
  | enumerated (reader : Nat) (devices : Nat)
  | enumerationFailed (reader : Nat) (err : String)
  | frame (reader : Nat) (result : Option String) (err : Option String)
deriving DecidableEq, Repr

/-- Whether the reader at an index satisfies a test. -/
def readerIs (c : Component) (i : Nat) (test : Reader → Bool) : Bool :=
  match c.readers.get? i with
  | some r => test r
  | none => false

/-- One event. Promise continuations fire only for a reader whose enumeration is
outstanding, and frames only for a reader whose session is running. -/
def dispatch (c : Component) : Event → Component
  | .clickStart => commit c.state { c with state := startScanning c.state }
  | .clickStop => commit c.state { c with state := stopScanning c.state }
  | .clickPay =>
    match redirectToUPI c.state with
    | some url => { c with location := some url }
    | none => c
  | .enumerated i devices => { c with readers := modifyAt (onEnumerated devices) i c.readers }
  | .enumerationFailed i err =>
    if readerIs c i (fun r => r.enumerating) then
      { c with readers := modifyAt onEnumerationError i c.readers,
               console := c.console ++ ["Error accessing camera: " ++ err] }
    else c
  | .frame i result err =>
    if readerIs c i (fun r => r.decoding) then commit c.state (decodeCallback c result err)
    else c

/-- A run of events from a component state. -/
def run (c : Component) (events : List Event) : Component := events.foldl dispatch c

/-- Whether some reader has a running session. -/
def sessionRunning (c : Component) : Bool := c.readers.any (fun r => r.decoding)

/-! ## Query strings as written: `k1=v1&k2=v2&...`

These definitions follow the wording of the specification (a query string of
`key=value` pairs separated by `&`, values URL-decoded); they are compared with the
parser above. -/

/-- Text of one `key=value` pair. -/
def pairText (p : String × String) : List Char := p.1.data ++ '=' :: p.2.data

/-- Pieces joined by `&`. -/
def joinAmp : List (List Char) → List Char
  | [] => []
  | [s] => s
  | s :: t :: l => s ++ '&' :: joinAmp (t :: l)

/-- The query string written from a list of raw (still encoded) `key=value` pairs. -/
def queryText (pairs : List (String × String)) : String := ⟨joinAmp (pairs.map pairText)⟩

/-- A raw pair can be written unambiguously: no `&` or `=` in the key, no `&` in the
value. -/
def wellFormedPair (p : String × String) : Bool :=
  !p.1.data.contains '&' && !p.1.data.contains '=' && !p.2.data.contains '&'

/-- URL-decoding of a raw key or value (`+` and percent escapes resolved). -/
def urlDecode (s : String) : String := Form.decodeComponent (UTF8.encode s.data)

/-- The URL-decoded value of the first pair whose URL-decoded key is `name`. -/
def firstValue (pairs : List (String × String)) (name : String) : Option String :=
  (pairs.find? (fun p => urlDecode p.1 == name)).map (fun p => urlDecode p.2)

end QRScanner

namespace QRScanner

/-! ## Lemmas on the platform operations -/

theorem JS.replaceChars_append_left (pat repl cs : List Char) :
    JS.replaceChars pat repl (pat ++ cs) = repl ++ cs := by
  cases pat with
  | nil =>
    cases cs with
    | nil => simp [JS.replaceChars]
    | cons c cs => simp [JS.replaceChars]
  | cons p ps => simp [JS.replaceChars]

theorem JS.replace_append_left (pat repl rest : String) :
    JS.replace (pat ++ rest) pat repl = repl ++ rest := by
  apply String.ext
  simp [JS.replace, JS.replaceChars_append_left]

theorem JS.truthy_iff (s : String) : JS.truthy s = true ↔ s ≠ "" := by
  rw [Ne, String.ext_iff]
  cases h : s.data <;> simp [JS.truthy, h]

theorem JS.truthy_append_left (s t : String) (h : JS.truthy s = true) :
    JS.truthy (s ++ t) = true := by
  cases hs : s.data with
  | nil => simp [JS.truthy, hs] at h
  | cons c cs => simp [JS.truthy, hs]

theorem URLSearchParams.get_eq_none_of_hasNoParam (p : URLSearchParams) (name : String)
    (h : p.hasNoParam name) : p.get name = none := by
  unfold URLSearchParams.get
  rw [Option.map_eq_none', List.find?_eq_none]
  intro t ht
  simpa using h t ht

/-! ## Lemmas on the handlers -/

theorem scanParams_prefixed (q : String) :
    scanParams ("upi://pay?" ++ q) = URLSearchParams.new q := by
  unfold scanParams
  have h : ("" : String) ++ q = q := String.ext (by simp)
  rw [JS.replace_append_left, h]

theorem handleScan_prefixed (st : State) (q : String) :
    handleScan st ("upi://pay?" ++ q)
      = { scannedData := some (scannedRecord (URLSearchParams.new q)), isScanning := false } := by
  unfold handleScan
  rw [if_pos (JS.truthy_append_left _ _ (by decide)), scanParams_prefixed]

theorem handleScan_nonempty (st : State) (data : String) (h : data ≠ "") :
    handleScan st data
      = { scannedData := some (scannedRecord (scanParams data)), isScanning := false } := by
  unfold handleScan
  rw [if_pos ((JS.truthy_iff data).2 h)]

theorem handleScan_empty (st : State) : handleScan st "" = st := by
  unfold handleScan
  rw [if_neg (by decide)]

/-! ## Lemmas on the parser -/

theorem UTF8.eq_of_mem_encodeChar (b : Nat) (hb : b < 0x80) (c : Char)
    (h : b ∈ UTF8.encodeChar c) : c = Char.ofNat b := by
  unfold UTF8.encodeChar at h
  simp only at h
  split_ifs at h
  · simp only [List.mem_singleton] at h
    rw [h, Char.ofNat_toNat]
  all_goals
    simp only [List.mem_cons, List.mem_singleton, List.mem_nil_iff, or_false] at h
    omega

theorem UTF8.not_mem_encode (cs : List Char) (h : '&' ∉ cs) : 0x26 ∉ UTF8.encode cs := by
  intro hm
  unfold UTF8.encode at hm
  rw [List.mem_flatMap] at hm
  obtain ⟨c, hc, hb⟩ := hm
  exact h (UTF8.eq_of_mem_encodeChar 0x26 (by decide) c hb ▸ hc)

theorem UTF8.encode_append (a b : List Char) :
    UTF8.encode (a ++ b) = UTF8.encode a ++ UTF8.encode b := by
  simp [UTF8.encode, List.flatMap_append]

theorem Form.splitOn_append_sep (sep : Nat) (seg rest : List Nat) (h : sep ∉ seg) :
    Form.splitOn sep (seg ++ sep :: rest) = seg :: Form.splitOn sep rest := by
  induction seg with
  | nil => simp [Form.splitOn]
  | cons b bs ih =>
    have hb : b ≠ sep := fun e => h (e ▸ List.mem_cons_self _ _)
    have hbs : sep ∉ bs := fun m => h (List.mem_cons_of_mem _ m)
    have e : Form.splitOn sep ((b :: bs) ++ sep :: rest)
        = (match Form.splitOn sep (bs ++ sep :: rest) with
          | [] => [[b]]
          | s :: ss => (b :: s) :: ss) := by
      show Form.splitOn sep (b :: (bs ++ sep :: rest)) = _
      rw [Form.splitOn, if_neg hb]
    rw [e, ih hbs]

theorem Form.parseBytes_append_sep (seg rest : List Nat) (h : 0x26 ∉ seg) (hne : seg ≠ []) :
    Form.parseBytes (seg ++ 0x26 :: rest) = Form.tuple seg :: Form.parseBytes rest := by
  unfold Form.parseBytes
  rw [Form.splitOn_append_sep _ _ _ h]
  cases seg with
  | nil => exact absurd rfl hne
  | cons b bs => simp [List.filter]


theorem upiUrl_eq (d : ScannedData) :
    upiUrl d = "upi://pay?" ++ ("pa=" ++ (JS.interpolate d.payeeUPI ++ ("&" ++ ("pn=Merchant"
      ++ ("&" ++ ("mc=0000" ++ ("&" ++ ("tid=123456" ++ ("&" ++ ("tr=123456" ++ ("&" ++ ("tn="
      ++ (d.note ++ ("&" ++ ("am=" ++ (d.amount ++ ("&" ++ "cu=INR"))))))))))))))))) := by
  have l1 : ("upi://pay?pa=" : String) = "upi://pay?" ++ "pa=" := by decide
  have l2 : ("&pn=Merchant&mc=0000&tid=123456&tr=123456&tn=" : String)
      = "&" ++ ("pn=Merchant" ++ ("&" ++ ("mc=0000" ++ ("&" ++ ("tid=123456" ++ ("&"
        ++ ("tr=123456" ++ ("&" ++ "tn=")))))))) := by decide
  have l3 : ("&am=" : String) = "&" ++ "am=" := by decide
  have l4 : ("&cu=INR" : String) = "&" ++ "cu=INR" := by decide
  unfold upiUrl
  rw [l1, l2, l3, l4]
  simp only [String.append_assoc]

theorem UTF8.encode_data_append (a b : String) :
    UTF8.encode (a ++ b).data = UTF8.encode a.data ++ UTF8.encode b.data := by
  rw [String.data_append, UTF8.encode_append]

theorem new_query (P N A : String) :
    URLSearchParams.new ("pa=" ++ (P ++ ("&" ++ ("pn=Merchant"
      ++ ("&" ++ ("mc=0000" ++ ("&" ++ ("tid=123456" ++ ("&" ++ ("tr=123456" ++ ("&" ++ ("tn="
      ++ (N ++ ("&" ++ ("am=" ++ (A ++ ("&" ++ "cu=INR")))))))))))))))))
    = ⟨Form.parseBytes ((UTF8.encode "pa=".data ++ UTF8.encode P.data) ++ 0x26 ::
        (UTF8.encode "pn=Merchant".data ++ 0x26 ::
        (UTF8.encode "mc=0000".data ++ 0x26 ::
        (UTF8.encode "tid=123456".data ++ 0x26 ::
        (UTF8.encode "tr=123456".data ++ 0x26 ::
        ((UTF8.encode "tn=".data ++ UTF8.encode N.data) ++ 0x26 ::
        ((UTF8.encode "am=".data ++ UTF8.encode A.data) ++ 0x26 ::
        UTF8.encode "cu=INR".data)))))))⟩ := by
  have hq : ∀ x : String, dropQuestionMark ("pa=" ++ x).data = ("pa=" ++ x).data :=
    fun x => by rw [String.data_append]; rfl
  have ha : ∀ x : String, UTF8.encode ("&" ++ x).data = 0x26 :: UTF8.encode x.data :=
    fun x => by rw [String.data_append]; rfl
  unfold URLSearchParams.new
  rw [hq]
  congr 2
  rw [UTF8.encode_data_append, UTF8.encode_data_append, ha,
    UTF8.encode_data_append, ha, UTF8.encode_data_append, ha,
    UTF8.encode_data_append, ha, UTF8.encode_data_append, ha,
    UTF8.encode_data_append, UTF8.encode_data_append, ha,
    UTF8.encode_data_append, UTF8.encode_data_append, ha,
    List.append_assoc, List.append_assoc, List.append_assoc]

theorem Form.name_of_prefixed (key rest : List Nat) (h : 0x3D ∉ key) :
    Form.nameBytes (key ++ 0x3D :: rest) = key := by
  unfold Form.nameBytes
  induction key with
  | nil => simp [List.takeWhile]
  | cons b bs ih =>
    have hb : b ≠ 0x3D := fun e => h (e ▸ List.mem_cons_self _ _)
    have hbs : 0x3D ∉ bs := fun m => h (List.mem_cons_of_mem _ m)
    have hp : (b != 0x3D) = true := by simpa using hb
    show List.takeWhile _ (b :: (bs ++ 0x3D :: rest)) = b :: bs
    rw [List.takeWhile_cons, if_pos hp, ih hbs]

theorem Form.tuple_pa (v : List Nat) :
    (Form.tuple (UTF8.encode "pa=".data ++ v)).1 = "pa" := by
  have e : UTF8.encode "pa=".data ++ v = [0x70, 0x61] ++ 0x3D :: v := rfl
  unfold Form.tuple
  rw [e, Form.name_of_prefixed _ _ (by decide)]
  show Form.decodeComponent _ = _
  decide

theorem Form.tuple_tn (v : List Nat) :
    (Form.tuple (UTF8.encode "tn=".data ++ v)).1 = "tn" := by
  have e : UTF8.encode "tn=".data ++ v = [0x74, 0x6E] ++ 0x3D :: v := rfl
  unfold Form.tuple
  rw [e, Form.name_of_prefixed _ _ (by decide)]
  show Form.decodeComponent _ = _
  decide

theorem Form.tuple_am (v : List Nat) :
    (Form.tuple (UTF8.encode "am=".data ++ v)).1 = "am" := by
  have e : UTF8.encode "am=".data ++ v = [0x61, 0x6D] ++ 0x3D :: v := rfl
  unfold Form.tuple
  rw [e, Form.name_of_prefixed _ _ (by decide)]
  show Form.decodeComponent _ = _
  decide

theorem get_cons (t : String × String) (l : List (String × String)) (name : String) :
    URLSearchParams.get ⟨t :: l⟩ name
      = if t.1 = name then some t.2 else URLSearchParams.get ⟨l⟩ name := by
  unfold URLSearchParams.get
  by_cases h : t.1 = name
  · simp [List.find?, h]
  · have hb : (t.1 == name) = false := by simpa using h
    simp [List.find?, hb, h]

theorem not_mem_prefixed (key v : List Char) (hk : 0x26 ∉ UTF8.encode key) (hv : '&' ∉ v) :
    0x26 ∉ UTF8.encode key ++ UTF8.encode v := by
  intro hm
  rcases List.mem_append.1 hm with h | h
  · exact hk h
  · exact UTF8.not_mem_encode v hv h

theorem get_pn_upiUrl (d : ScannedData) (hP : '&' ∉ (JS.interpolate d.payeeUPI).data) :
    (scanParams (upiUrl d)).get "pn" = some "Merchant" := by
  rw [upiUrl_eq, scanParams_prefixed, new_query,
    Form.parseBytes_append_sep _ _ (not_mem_prefixed _ _ (by decide) hP) (List.append_ne_nil_of_left_ne_nil (by decide) _),
    Form.parseBytes_append_sep _ _ (by decide) (by decide),
    get_cons, Form.tuple_pa, if_neg (by decide), get_cons]
  have e : Form.tuple (UTF8.encode "pn=Merchant".data) = ("pn", "Merchant") := by decide
  rw [e]
  rfl


theorem get_cu_upiUrl (d : ScannedData) (hP : '&' ∉ (JS.interpolate d.payeeUPI).data)
    (hN : '&' ∉ d.note.data) (hA : '&' ∉ d.amount.data) :
    (scanParams (upiUrl d)).get "cu" = some "INR" := by
  have e2 : Form.tuple (UTF8.encode "pn=Merchant".data) = ("pn", "Merchant") := by decide
  have e3 : Form.tuple (UTF8.encode "mc=0000".data) = ("mc", "0000") := by decide
  have e4 : Form.tuple (UTF8.encode "tid=123456".data) = ("tid", "123456") := by decide
  have e5 : Form.tuple (UTF8.encode "tr=123456".data) = ("tr", "123456") := by decide
  have e8 : Form.parseBytes (UTF8.encode "cu=INR".data) = [("cu", "INR")] := by decide
  rw [upiUrl_eq, scanParams_prefixed, new_query,
    Form.parseBytes_append_sep _ _ (not_mem_prefixed _ _ (by decide) hP)
      (List.append_ne_nil_of_left_ne_nil (by decide) _),
    Form.parseBytes_append_sep _ _ (by decide) (by decide),
    Form.parseBytes_append_sep _ _ (by decide) (by decide),
    Form.parseBytes_append_sep _ _ (by decide) (by decide),
    Form.parseBytes_append_sep _ _ (by decide) (by decide),
    Form.parseBytes_append_sep _ _ (not_mem_prefixed _ _ (by decide) hN)
      (List.append_ne_nil_of_left_ne_nil (by decide) _),
    Form.parseBytes_append_sep _ _ (not_mem_prefixed _ _ (by decide) hA)
      (List.append_ne_nil_of_left_ne_nil (by decide) _),
    e2, e3, e4, e5, e8,
    get_cons, Form.tuple_pa, if_neg (by decide),
    get_cons, if_neg (by decide), get_cons, if_neg (by decide),
    get_cons, if_neg (by decide), get_cons, if_neg (by decide),
    get_cons, Form.tuple_tn, if_neg (by decide),
    get_cons, Form.tuple_am, if_neg (by decide), get_cons]
  rfl


theorem UTF8.not_mem_encode_ascii (b : Nat) (hb : b < 0x80) (cs : List Char)
    (h : cs.contains (Char.ofNat b) = false) : b ∉ UTF8.encode cs := by
  intro hm
  unfold UTF8.encode at hm
  rw [List.mem_flatMap] at hm
  obtain ⟨c, hc, hm⟩ := hm
  have e := UTF8.eq_of_mem_encodeChar b hb c hm
  subst e
  simp [hc] at h

theorem Form.splitOn_of_not_mem (sep : Nat) (seg : List Nat) (h : sep ∉ seg) :
    Form.splitOn sep seg = [seg] := by
  induction seg with
  | nil => rfl
  | cons b bs ih =>
    have hb : b ≠ sep := fun e => h (e ▸ List.mem_cons_self _ _)
    have hbs : sep ∉ bs := fun m => h (List.mem_cons_of_mem _ m)
    rw [Form.splitOn, if_neg hb, ih hbs]

theorem Form.parseBytes_of_not_mem (seg : List Nat) (h : 0x26 ∉ seg) (hne : seg ≠ []) :
    Form.parseBytes seg = [Form.tuple seg] := by
  unfold Form.parseBytes
  rw [Form.splitOn_of_not_mem _ _ h]
  cases seg with
  | nil => exact absurd rfl hne
  | cons b bs => simp [List.filter]

theorem Form.value_of_prefixed (key rest : List Nat) (h : 0x3D ∉ key) :
    Form.valueBytes (key ++ 0x3D :: rest) = rest := by
  unfold Form.valueBytes
  induction key with
  | nil => simp [List.dropWhile]
  | cons b bs ih =>
    have hb : b ≠ 0x3D := fun e => h (e ▸ List.mem_cons_self _ _)
    have hbs : 0x3D ∉ bs := fun m => h (List.mem_cons_of_mem _ m)
    have hp : (b != 0x3D) = true := by simpa using hb
    show List.drop 1 (List.dropWhile _ (b :: (bs ++ 0x3D :: rest))) = rest
    rw [List.dropWhile_cons, if_pos hp, ih hbs]

theorem tuple_pairText (p : String × String) (h : wellFormedPair p = true) :
    Form.tuple (UTF8.encode (pairText p)) = (urlDecode p.1, urlDecode p.2) := by
  simp only [wellFormedPair, Bool.and_eq_true, Bool.not_eq_true'] at h
  have hk : 0x3D ∉ UTF8.encode p.1.data := UTF8.not_mem_encode_ascii 0x3D (by decide) _ h.1.2
  have e : UTF8.encode (pairText p) = UTF8.encode p.1.data ++ 0x3D :: UTF8.encode p.2.data := by
    unfold pairText
    rw [UTF8.encode_append]
    rfl
  unfold Form.tuple urlDecode
  rw [e, Form.name_of_prefixed _ _ hk, Form.value_of_prefixed _ _ hk]

theorem not_mem_encode_pairText (p : String × String) (h : wellFormedPair p = true) :
    0x26 ∉ UTF8.encode (pairText p) := by
  simp only [wellFormedPair, Bool.and_eq_true, Bool.not_eq_true'] at h
  apply UTF8.not_mem_encode_ascii 0x26 (by decide)
  unfold pairText
  have h1 := h.1.1
  have h2 := h.2
  simp only [List.contains_eq_any_beq, List.any_eq_false, beq_iff_eq] at h1 h2 ⊢
  intro c hc
  rcases List.mem_append.1 hc with hc | hc
  · exact h1 c hc
  · rcases List.mem_cons.1 hc with hc | hc
    · subst hc; decide
    · exact h2 c hc

theorem encode_pairText_ne_nil (p : String × String) : UTF8.encode (pairText p) ≠ [] := by
  unfold pairText
  rw [UTF8.encode_append]
  exact List.append_ne_nil_of_right_ne_nil _ (by
    show UTF8.encode ('=' :: p.2.data) ≠ []
    exact List.cons_ne_nil _ _)

theorem parseBytes_joinAmp (pairs : List (String × String))
    (hwf : pairs.all wellFormedPair = true) :
    Form.parseBytes (UTF8.encode (joinAmp (pairs.map pairText)))
      = pairs.map (fun p => (urlDecode p.1, urlDecode p.2)) := by
  induction pairs with
  | nil => rfl
  | cons p rest ih =>
    simp only [List.all_cons, Bool.and_eq_true] at hwf
    cases rest with
    | nil =>
      show Form.parseBytes (UTF8.encode (pairText p)) = _
      rw [Form.parseBytes_of_not_mem _ (not_mem_encode_pairText p hwf.1)
        (encode_pairText_ne_nil p), tuple_pairText p hwf.1]
      rfl
    | cons p2 rest2 =>
      have e : UTF8.encode (joinAmp ((p :: p2 :: rest2).map pairText))
          = UTF8.encode (pairText p) ++ 0x26 ::
              UTF8.encode (joinAmp ((p2 :: rest2).map pairText)) := by
        show UTF8.encode (pairText p ++ '&' :: joinAmp ((p2 :: rest2).map pairText)) = _
        rw [UTF8.encode_append]
        rfl
      rw [e, Form.parseBytes_append_sep _ _ (not_mem_encode_pairText p hwf.1)
        (encode_pairText_ne_nil p), tuple_pairText p hwf.1, ih hwf.2]
      rfl

theorem dropQuestionMark_of_head (cs : List Char) (h : cs.head? ≠ some '?') :
    dropQuestionMark cs = cs := by
  cases cs with
  | nil => rfl
  | cons c cs =>
    have hc : c ≠ '?' := fun e => h (by rw [e]; rfl)
    rw [dropQuestionMark, if_neg hc]

theorem new_queryText (pairs : List (String × String))
    (hwf : pairs.all wellFormedPair = true) (hq : (queryText pairs).data.head? ≠ some '?') :
    URLSearchParams.new (queryText pairs)
      = ⟨pairs.map (fun p => (urlDecode p.1, urlDecode p.2))⟩ := by
  unfold URLSearchParams.new
  rw [dropQuestionMark_of_head _ hq]
  congr 1
  exact parseBytes_joinAmp pairs hwf

theorem get_map_pairs (pairs : List (String × String)) (name : String) :
    URLSearchParams.get ⟨pairs.map (fun p => (urlDecode p.1, urlDecode p.2))⟩ name
      = firstValue pairs name := by
  unfold URLSearchParams.get firstValue
  induction pairs with
  | nil => rfl
  | cons p rest ih =>
    simp only [List.map_cons, List.find?_cons]
    cases h : (urlDecode p.1 == name)
    · simpa using ih
    · rfl


/-! ## Lemmas on the lifecycle -/

theorem commit_state (old : State) (c : Component) : (commit old c).state = c.state := by
  unfold commit
  split_ifs <;> rfl

theorem commit_of_same_flag (old : State) (c : Component)
    (h : old.isScanning = c.state.isScanning) : commit old c = c := by
  unfold commit
  rw [if_pos h]

theorem decodeCallback_state (c : Component) (text : String) (err : Option String) :
    (decodeCallback c (some text) err).state = handleScan c.state text := rfl

theorem upiUrl_of_no_payee (r : ScannedData) (h : r.payeeUPI = none) :
    upiUrl r = "upi://pay?pa=null&pn=Merchant"
      ++ ("&mc=0000&tid=123456&tr=123456&tn=" ++ r.note ++ "&am=" ++ r.amount ++ "&cu=INR") := by
  have l : ("upi://pay?pa=" : String) ++ "null" ++ "&pn=Merchant&mc=0000&tid=123456&tr=123456&tn="
      = "upi://pay?pa=null&pn=Merchant" ++ "&mc=0000&tid=123456&tr=123456&tn=" := by decide
  unfold upiUrl JS.interpolate
  rw [h]
  simp only
  rw [l]
  simp only [String.append_assoc]

/-! ## The claims -/

/-- C1. For every stored record whose payee id, amount and note are strings, the URI
built by `redirectToUPI` is exactly
`upi://pay?pa=<payeeId>&pn=Merchant&mc=0000&tid=123456&tr=123456&tn=<note>&am=<amount>&cu=INR`
with the three values inserted verbatim, whatever the record holds as payee name and
currency and whatever the scanning flag is; the record of the specification's example
gives the URI written there. -/
theorem redirectToUPI_builds_fixed_uri (payeeId amount note : String)
    (payeeName : Option String) (currency : String) (scanning : Bool) :
    redirectToUPI
        { scannedData := some
            { payeeUPI := some payeeId, payeeName := payeeName, amount := amount,
              currency := currency, note := note },
          isScanning := scanning }
      = some ("upi://pay?pa=" ++ payeeId ++ "&pn=Merchant&mc=0000&tid=123456&tr=123456&tn="
          ++ note ++ "&am=" ++ amount ++ "&cu=INR")
    ∧ redirectToUPI
        { scannedData := some
            { payeeUPI := some "bob@bank", payeeName := payeeName, amount := "",
              currency := currency, note := "Payment via Money Tracker App" },
          isScanning := scanning }
      = some "upi://pay?pa=bob@bank&pn=Merchant&mc=0000&tid=123456&tr=123456&tn=Payment via Money Tracker App&am=&cu=INR" :=
  ⟨rfl, by
    show some (upiUrl _) = _
    congr 1⟩

/-- C2, counterexample. A `cu` (or `tn`) parameter that is present with an empty value
does not give the field its URL-decoded value: in `upi://pay?cu=&tn=` both keys are
present with the empty value, and the scan stores currency `INR` and the placeholder
note. -/
theorem handleScan_empty_value_takes_default :
    ("upi://pay?" ++ queryText [("cu", ""), ("tn", "")] : String) = "upi://pay?cu=&tn="
    ∧ firstValue [("cu", ""), ("tn", "")] "cu" = some ""
    ∧ firstValue [("cu", ""), ("tn", "")] "tn" = some ""
    ∧ (handleScan State.initial "upi://pay?cu=&tn=").scannedData
        = some { payeeUPI := none, payeeName := none, amount := "", currency := "INR",
                 note := "Payment via Money Tracker App" } := by
  decide

/-- C2, amended. For every scanned text `upi://pay?` followed by a query string written
from `key=value` pairs joined by `&` (keys without `&` and `=`, values without `&`, and
the query itself not opening with a further `?`, which the parser would drop),
`handleScan` stores a record in which: payee id, payee name and amount equal the
URL-decoded value of the first pair whose URL-decoded key is `pa`, `pn`, `am`
respectively, whenever there is such a pair; currency and note equal the URL-decoded
value of the first `cu` / `tn` pair when that value is not empty, and are `INR` / the
placeholder note when it is empty. -/
theorem handleScan_present_params (st : State) (pairs : List (String × String))
    (hwf : pairs.all wellFormedPair = true)
    (hq : (queryText pairs).data.head? ≠ some '?') :
    ∃ r : ScannedData,
      (handleScan st ("upi://pay?" ++ queryText pairs)).scannedData = some r
      ∧ (∀ v, firstValue pairs "pa" = some v → r.payeeUPI = some v)
      ∧ (∀ v, firstValue pairs "pn" = some v → r.payeeName = some v)
      ∧ (∀ v, firstValue pairs "am" = some v → r.amount = v)
      ∧ (∀ v, firstValue pairs "cu" = some v → r.currency = if v = "" then "INR" else v)
      ∧ (∀ v, firstValue pairs "tn" = some v →
          r.note = if v = "" then "Payment via Money Tracker App" else v) := by
  have hor : ∀ (v d : String), JS.orElse (some v) d = if v = "" then d else v := by
    intro v d
    by_cases hv : v = ""
    · subst hv; rfl
    · simp only [JS.orElse, (JS.truthy_iff v).2 hv, if_true, if_neg hv]
  refine ⟨scannedRecord (URLSearchParams.new (queryText pairs)), ?_, ?_, ?_, ?_, ?_, ?_⟩
  · rw [handleScan_prefixed]
  all_goals
    intro v hv
    rw [new_queryText pairs hwf hq]
    simp only [scannedRecord, get_map_pairs, hv, hor]
    try split_ifs with h0 <;> simp only [h0]

/-- C2, the example of the specification, obtained from the general statement: the scan
of `upi://pay?pa=alice@bank&pn=Alice&am=50&cu=INR&tn=Lunch` stores
`alice@bank`, `Alice`, `50`, `INR`, `Lunch`. -/
theorem handleScan_present_params_witness :
    (handleScan State.initial
        "upi://pay?pa=alice@bank&pn=Alice&am=50&cu=INR&tn=Lunch").scannedData
      = some { payeeUPI := some "alice@bank", payeeName := some "Alice", amount := "50",
               currency := "INR", note := "Lunch" } := by
  obtain ⟨r, hr, hpa, hpn, ham, hcu, htn⟩ :=
    handleScan_present_params State.initial
      [("pa", "alice@bank"), ("pn", "Alice"), ("am", "50"), ("cu", "INR"), ("tn", "Lunch")]
      (by decide) (by decide)
  have e : ("upi://pay?pa=alice@bank&pn=Alice&am=50&cu=INR&tn=Lunch" : String)
      = "upi://pay?" ++ queryText
          [("pa", "alice@bank"), ("pn", "Alice"), ("am", "50"), ("cu", "INR"), ("tn", "Lunch")] := by
    decide
  rw [e, hr]
  have h1 := hpa "alice@bank" (by decide)
  have h2 := hpn "Alice" (by decide)
  have h3 := ham "50" (by decide)
  have h4 := hcu "INR" (by decide)
  have h5 := htn "Lunch" (by decide)
  cases r
  simp only at h1 h2 h3 h4 h5
  rw [h1, h2, h3, h4, h5]
  rfl

/-- C3. For every scanned text `upi://pay?` followed by any text `q`, `handleScan`
stores a record in which each field whose parameter is absent from the parsed `q` has
its default: amount empty when there is no `am`, currency `INR` when there is no `cu`,
note `Payment via Money Tracker App` when there is no `tn`, payee id and payee name
unset when there is no `pa` / `pn`. -/
theorem handleScan_absent_params (st : State) (q : String) :
    ∃ r : ScannedData,
      (handleScan st ("upi://pay?" ++ q)).scannedData = some r
      ∧ ((URLSearchParams.new q).hasNoParam "am" → r.amount = "")
      ∧ ((URLSearchParams.new q).hasNoParam "cu" → r.currency = "INR")
      ∧ ((URLSearchParams.new q).hasNoParam "tn" → r.note = "Payment via Money Tracker App")
      ∧ ((URLSearchParams.new q).hasNoParam "pa" → r.payeeUPI = none)
      ∧ ((URLSearchParams.new q).hasNoParam "pn" → r.payeeName = none) := by
  refine ⟨scannedRecord (URLSearchParams.new q), ?_, ?_, ?_, ?_, ?_, ?_⟩
  · rw [handleScan_prefixed]
  all_goals
    intro h
    simp only [scannedRecord, URLSearchParams.get_eq_none_of_hasNoParam _ _ h, JS.orElse]

/-- C3, the example of the specification, obtained from the general statement: the scan
of `upi://pay?pa=bob@bank` stores a record with payee name unset, amount empty, currency
`INR` and the placeholder note. -/
theorem handleScan_absent_params_witness :
    ∃ r : ScannedData,
      (handleScan State.initial "upi://pay?pa=bob@bank").scannedData = some r
      ∧ r.payeeName = none ∧ r.amount = "" ∧ r.currency = "INR"
      ∧ r.note = "Payment via Money Tracker App"
      ∧ (handleScan State.initial "upi://pay?pa=bob@bank").scannedData
          = some { payeeUPI := some "bob@bank", payeeName := none, amount := "",
                   currency := "INR", note := "Payment via Money Tracker App" } := by
  obtain ⟨r, hr, ham, hcu, htn, _, hpn⟩ := handleScan_absent_params State.initial "pa=bob@bank"
  have e : ("upi://pay?pa=bob@bank" : String) = "upi://pay?" ++ "pa=bob@bank" := by decide
  refine ⟨r, e ▸ hr, hpn (by decide), ham (by decide), hcu (by decide), htn (by decide), ?_⟩
  decide

/-- C4, counterexample. The well-formed URI `upi://pay?pa=x%26pn%3DEvil%26cu%3DUSD`
carries only `pa`, with a percent-encoded value. Its scan stores payee id
`x&pn=Evil&cu=USD`, the pay action inserts that text verbatim, and in the URI it builds
the first `pn` parameter is `Evil` and the first `cu` parameter is `USD`. -/
theorem scan_then_pay_reads_injected_pn_cu :
    redirectToUPI (handleScan State.initial "upi://pay?pa=x%26pn%3DEvil%26cu%3DUSD")
      = some "upi://pay?pa=x&pn=Evil&cu=USD&pn=Merchant&mc=0000&tid=123456&tr=123456&tn=Payment via Money Tracker App&am=&cu=INR"
    ∧ readParam "upi://pay?pa=x&pn=Evil&cu=USD&pn=Merchant&mc=0000&tid=123456&tr=123456&tn=Payment via Money Tracker App&am=&cu=INR" "pn"
      = some "Evil"
    ∧ readParam "upi://pay?pa=x&pn=Evil&cu=USD&pn=Merchant&mc=0000&tid=123456&tr=123456&tn=Payment via Money Tracker App&am=&cu=INR" "cu"
      = some "USD" := by
  decide

/-- C4, amended. For every scanned text `upi://pay?` followed by any text, the scan
stores a record and the pay action on it builds a URI; read the way the scan reads one,
that URI has `pn` equal to `Merchant` whenever the payee text inserted into it (the
decoded `pa`, or `null` when `pa` is absent) contains no `&`, and `cu` equal to `INR`
whenever the inserted payee, note and amount texts contain no `&`. -/
theorem scan_then_pay_pn_cu (st : State) (q : String) :
    ∃ (r : ScannedData) (uri : String),
      (handleScan st ("upi://pay?" ++ q)).scannedData = some r
      ∧ redirectToUPI (handleScan st ("upi://pay?" ++ q)) = some uri
      ∧ ('&' ∉ (JS.interpolate r.payeeUPI).data → readParam uri "pn" = some "Merchant")
      ∧ ('&' ∉ (JS.interpolate r.payeeUPI).data → '&' ∉ r.note.data → '&' ∉ r.amount.data →
          readParam uri "cu" = some "INR") := by
  refine ⟨scannedRecord (URLSearchParams.new q),
    upiUrl (scannedRecord (URLSearchParams.new q)), ?_, ?_, ?_, ?_⟩
  · rw [handleScan_prefixed]
  · rw [handleScan_prefixed]
    rfl
  · exact fun hP => get_pn_upiUrl _ hP
  · exact fun hP hN hA => get_cu_upiUrl _ hP hN hA

/-- C4, an instance of the amended statement: the scan of
`upi://pay?pa=alice@bank&pn=Alice&cu=USD` followed by the pay action gives a URI whose
`pn` is `Merchant` and whose `cu` is `INR`. -/
theorem scan_then_pay_pn_cu_witness :
    ∃ uri : String,
      redirectToUPI (handleScan State.initial "upi://pay?pa=alice@bank&pn=Alice&cu=USD")
        = some uri
      ∧ readParam uri "pn" = some "Merchant" ∧ readParam uri "cu" = some "INR" := by
  obtain ⟨r, uri, hr, hu, hpn, hcu⟩ :=
    scan_then_pay_pn_cu State.initial "pa=alice@bank&pn=Alice&cu=USD"
  have e : ("upi://pay?pa=alice@bank&pn=Alice&cu=USD" : String)
      = "upi://pay?" ++ "pa=alice@bank&pn=Alice&cu=USD" := by decide
  have hr2 : r = { payeeUPI := some "alice@bank", payeeName := some "Alice", amount := "",
                   currency := "USD", note := "Payment via Money Tracker App" } := by
    have h0 : (handleScan State.initial
        ("upi://pay?" ++ "pa=alice@bank&pn=Alice&cu=USD")).scannedData
        = some { payeeUPI := some "alice@bank", payeeName := some "Alice", amount := "",
                 currency := "USD", note := "Payment via Money Tracker App" } := by decide
    exact Option.some.inj (hr.symm.trans h0)
  subst hr2
  exact ⟨uri, e ▸ hu, hpn (by decide), hcu (by decide) (by decide) (by decide)⟩

/-- C5, the code at a text that does not start with the marker: the scan of
`pa=shop@bank&tn=upi://pay?ref=7` removes the marker from inside the `tn` value and
stores the note `ref=7`, whereas parsing the whole, unmodified text as a query string
gives the note `upi://pay?ref=7`. -/
theorem handleScan_strips_marker_inside_value :
    ("upi://pay?".data.isPrefixOf "pa=shop@bank&tn=upi://pay?ref=7".data) = false
    ∧ (handleScan State.initial "pa=shop@bank&tn=upi://pay?ref=7").scannedData
        = some { payeeUPI := some "shop@bank", payeeName := none, amount := "",
                 currency := "INR", note := "ref=7" }
    ∧ scannedRecord (URLSearchParams.new "pa=shop@bank&tn=upi://pay?ref=7")
        = { payeeUPI := some "shop@bank", payeeName := none, amount := "",
            currency := "INR", note := "upi://pay?ref=7" } := by
  decide

/-- C6, counterexample. Handed the empty text, `handleScan` stores nothing: from the
mounted state the current record stays unset. -/
theorem handleScan_empty_text_stores_nothing :
    (handleScan State.initial "").scannedData = none := by
  decide

/-- C6, amended. For every state and every non-empty text, with or without the
`upi://pay?` marker, `handleScan` (a total function: no step of it can raise) stores as
the current record the record projected from the parameters of that text, every field
the text does not supply having its default, and clears the scanning flag; handed the
empty text it leaves the state as it is. -/
theorem handleScan_nonempty_stores_record (st : State) (data : String) (h : data ≠ "") :
    (∃ r : ScannedData,
      handleScan st data = { scannedData := some r, isScanning := false }
      ∧ r = scannedRecord (scanParams data)
      ∧ ((scanParams data).list = [] →
          r = { payeeUPI := none, payeeName := none, amount := "", currency := "INR",
                note := "Payment via Money Tracker App" }))
    ∧ handleScan st "" = st := by
  refine ⟨⟨scannedRecord (scanParams data), handleScan_nonempty st data h, rfl, ?_⟩,
    handleScan_empty st⟩
  intro hl
  have hp : scanParams data = ⟨[]⟩ := by
    cases hs : scanParams data
    rw [hs] at hl
    simp only at hl
    rw [hl]
  rw [hp]
  rfl

/-- C6, an instance: the text `hello world`, which has no marker and supplies none of
the five parameters, gives a stored record of defaults. -/
theorem handleScan_nonempty_stores_record_witness :
    ("hello world" : String) ≠ ""
    ∧ handleScan State.initial "hello world"
        = { scannedData := some { payeeUPI := none, payeeName := none, amount := "",
                                  currency := "INR",
                                  note := "Payment via Money Tracker App" },
            isScanning := false } := by
  refine ⟨by decide, ?_⟩
  obtain ⟨⟨r, hr, hrec, _⟩, _⟩ :=
    handleScan_nonempty_stores_record State.initial "hello world" (by decide)
  rw [hr, hrec]
  decide

/-- C7, counterexample. With the scanning flag true and a session running, a successful
decode whose result carries the empty text leaves the flag true and the session
running: `handleScan` is called with that text and skips its body. -/
theorem decodeCallback_empty_text_keeps_scanning :
    (run Component.initial [.clickStart, .enumerated 0 1]).state.isScanning = true
    ∧ (decodeCallback (run Component.initial [.clickStart, .enumerated 0 1])
        (some "") none).state.isScanning = true
    ∧ (run Component.initial
        [.clickStart, .enumerated 0 1, .frame 0 (some "") none]).state.isScanning = true
    ∧ sessionRunning (run Component.initial
        [.clickStart, .enumerated 0 1, .frame 0 (some "") none]) = true := by
  decide

/-- C7, amended. For every component state (scanning flag true or not) and every
successful decode event whose result carries a non-empty text, with or without an
error alongside, the state after the callback is the state `handleScan` gives for that
text: the record of the text is stored and the scanning flag is false; the same holds
after the frame event of a running session. -/
theorem decodeCallback_single_shot (c : Component) (text : String) (err : Option String)
    (h : text ≠ "") :
    (decodeCallback c (some text) err).state = handleScan c.state text
    ∧ (decodeCallback c (some text) err).state.scannedData
        = some (scannedRecord (scanParams text))
    ∧ (decodeCallback c (some text) err).state.isScanning = false
    ∧ (∀ i, readerIs c i (fun r => r.decoding) = true →
        (dispatch c (.frame i (some text) err)).state
          = { scannedData := some (scannedRecord (scanParams text)), isScanning := false }) := by
  have e := handleScan_nonempty c.state text h
  refine ⟨rfl, ?_, ?_, ?_⟩
  · rw [decodeCallback_state, e]
  · rw [decodeCallback_state, e]
  · intro i hi
    show (if readerIs c i (fun r => r.decoding) = true
      then commit c.state (decodeCallback c (some text) err) else c).state = _
    rw [if_pos hi, commit_state, decodeCallback_state, e]

/-- C7, an instance: while scanning with a running session, the frame carrying
`upi://pay?pa=a@b` stores its record, clears the flag, and the cleanup of the effect
stops the session. -/
theorem decodeCallback_single_shot_witness :
    ("upi://pay?pa=a@b" : String) ≠ ""
    ∧ (run Component.initial [.clickStart, .enumerated 0 1]).state.isScanning = true
    ∧ (decodeCallback (run Component.initial [.clickStart, .enumerated 0 1])
        (some "upi://pay?pa=a@b") none).state.isScanning = false
    ∧ sessionRunning (run Component.initial
        [.clickStart, .enumerated 0 1, .frame 0 (some "upi://pay?pa=a@b") none]) = false :=
  ⟨by decide, by decide,
    (decodeCallback_single_shot (run Component.initial [.clickStart, .enumerated 0 1])
      "upi://pay?pa=a@b" none (by decide)).2.2.1,
    by decide⟩

/-- C8, the code on the run start, stop, enumeration resolves with one device. After the
stop the cleanup has reset the reader while its enumeration is still outstanding; when
the enumeration resolves, the continuation starts a session on that reader all the
same, so a session is running while the scanning flag is false. -/
theorem stop_before_enumeration_leaves_session_running :
    (run Component.initial [.clickStart, .clickStop]).readers
      = [{ enumerating := true, decoding := false }]
    ∧ (run Component.initial [.clickStart, .clickStop, .enumerated 0 1]).state.isScanning
      = false
    ∧ (run Component.initial [.clickStart, .clickStop, .enumerated 0 1]).readers
      = [{ enumerating := false, decoding := true }]
    ∧ sessionRunning (run Component.initial [.clickStart, .clickStop, .enumerated 0 1])
      = true := by
  decide

/-- C9. For every state, `stopScanning` (a total function) yields a state whose scanning
flag is false and whose record is unchanged; applied twice it gives the same state as
applied once, and applied to the mounted state, before any start, it leaves it as it
is. The same holds for the stop event on the whole component, readers included. -/
theorem stopScanning_clears_flag_keeps_record (st : State) (c : Component) :
    (stopScanning st).isScanning = false
    ∧ (stopScanning st).scannedData = st.scannedData
    ∧ stopScanning (stopScanning st) = stopScanning st
    ∧ stopScanning State.initial = State.initial
    ∧ (dispatch c .clickStop).state = stopScanning c.state
    ∧ dispatch (dispatch c .clickStop) .clickStop = dispatch c .clickStop
    ∧ dispatch Component.initial .clickStop = Component.initial := by
  refine ⟨rfl, rfl, rfl, rfl, commit_state _ _, ?_, by decide⟩
  have hs : (dispatch c .clickStop).state = stopScanning c.state := commit_state _ _
  show commit (dispatch c .clickStop).state
      { dispatch c .clickStop with state := stopScanning (dispatch c .clickStop).state } = _
  rw [commit_of_same_flag]
  · rw [hs]
    show ({ dispatch c .clickStop with state := stopScanning c.state } : Component) = _
    rw [← hs]
  · rw [hs]
    rfl

/-- C10. For every non-empty scanned text whose parameters, as `handleScan` reads them,
include no `pa`, the stored record has the payee id unset, and the pay action on the
resulting state still builds a URI, which begins with `upi://pay?pa=null&pn=Merchant`;
dispatched on the component, that URI is what is assigned to the location. -/
theorem pay_without_payee_renders_null (c : Component) (data : String) (h : data ≠ "")
    (hno : (scanParams data).hasNoParam "pa") :
    ∃ (r : ScannedData) (rest : String),
      (handleScan c.state data).scannedData = some r
      ∧ r.payeeUPI = none
      ∧ redirectToUPI (handleScan c.state data)
          = some ("upi://pay?pa=null&pn=Merchant" ++ rest)
      ∧ (dispatch { c with state := handleScan c.state data } .clickPay).location
          = some ("upi://pay?pa=null&pn=Merchant" ++ rest) := by
  have e := handleScan_nonempty c.state data h
  have hp : (scannedRecord (scanParams data)).payeeUPI = none :=
    URLSearchParams.get_eq_none_of_hasNoParam _ _ hno
  have hu : redirectToUPI (handleScan c.state data)
      = some ("upi://pay?pa=null&pn=Merchant"
          ++ ("&mc=0000&tid=123456&tr=123456&tn=" ++ (scannedRecord (scanParams data)).note
              ++ "&am=" ++ (scannedRecord (scanParams data)).amount ++ "&cu=INR")) := by
    rw [e, ← upiUrl_of_no_payee _ hp]
    rfl
  refine ⟨_, _, by rw [e], hp, hu, ?_⟩
  show (match redirectToUPI (handleScan c.state data) with
    | some url => { { c with state := handleScan c.state data } with location := some url }
    | none => { c with state := handleScan c.state data }).location = _
  rw [hu]

/-- C10, an instance: the scan of `upi://pay?am=5`, which has no `pa`, followed by the
pay action. -/
theorem pay_without_payee_renders_null_witness :
    ("upi://pay?am=5" : String) ≠ ""
    ∧ (scanParams "upi://pay?am=5").hasNoParam "pa"
    ∧ ∃ (r : ScannedData) (rest : String),
      (handleScan Component.initial.state "upi://pay?am=5").scannedData = some r
      ∧ r.payeeUPI = none
      ∧ redirectToUPI (handleScan Component.initial.state "upi://pay?am=5")
          = some ("upi://pay?pa=null&pn=Merchant" ++ rest)
      ∧ (dispatch { Component.initial with
            state := handleScan Component.initial.state "upi://pay?am=5" } .clickPay).location
          = some ("upi://pay?pa=null&pn=Merchant" ++ rest) :=
  ⟨by decide, by decide,
    pay_without_payee_renders_null Component.initial "upi://pay?am=5" (by decide) (by decide)⟩

end QRScanner
